import Mathlib

/-!
Verification of the two programs in this repository against their
natural-language specification.

* `src/p1.cpp` : an iterative binary search over a sorted `std::vector<int>`.
* `src/prime.cpp` : a small text adventure (rooms, items, a player, and a
  line-oriented command loop).

The C++ code is shallowly embedded below.  Pure functions become Lean
functions; the mutable game objects (`Room`, `Player`, `Game`) become a
`GameState` value threaded through the operations; console output becomes an
explicit list of abstract `Msg` values (one constructor per distinct print
site that the verified properties talk about); `nullptr`-returning lookups
become `Option`.  The embedding keeps the source's control flow, including
the duplicated `addExit` wiring in `createWorld` and the defensive
re-`removeItem` in `Player::take`.
-/

/-! ## ASCII lowercasing (`::tolower` applied via `std::transform`) -/

/-- One character of `::tolower` in the "C" locale: only `A`–`Z` change. -/
def lowerChar (c : Char) : Char :=
  if 65 ≤ c.toNat ∧ c.toNat ≤ 90 then Char.ofNat (c.toNat + 32) else c

/-- String lowercasing as done by `std::transform(..., ::tolower)`. -/
def asciiLower (s : String) : String := ⟨s.data.map lowerChar⟩

/-! ## `src/p1.cpp` : binary search -/

/-- Loop of `binarySearch` (src/p1.cpp lines 19–36), one recursive call per
iteration.  `low`, `high`, `mid` are C++ `int`s, kept as `Int`; the vector
access `arr[mid]` is embedded as `getD` (every call below keeps `mid` in
range, which theorem `C10`–style invariants in the proofs re-establish). -/
def bsAux (arr : List Int) (target : Int) (low high : Int) : Int :=
  if low ≤ high then
    let mid := low + (high - low) / 2
    let v := arr.getD mid.toNat 0
    if v = target then mid
    else if v < target then bsAux arr target (mid + 1) high
    else bsAux arr target low (mid - 1)
  else -1
termination_by (high + 1 - low).toNat
decreasing_by
  all_goals simp_wf
  all_goals omega

/-- `binarySearch(arr, target)` (src/p1.cpp lines 15–40):
`low = 0`, `high = arr.size() - 1`. -/
def binarySearch (arr : List Int) (target : Int) : Int :=
  bsAux arr target 0 ((arr.length : Int) - 1)

/-- The sorted vector used by `main` in src/p1.cpp. -/
def numbers : List Int := [2, 5, 8, 12, 16, 23, 38, 56, 72, 91]

/-! ## `src/prime.cpp` : data model -/

/-- The `Item` class (name, description, takeable flag). -/
structure Item where
  name : String
  description : String
  takeable : Bool
deriving DecidableEq

/-- `Item::getNameLower`. -/
def Item.getNameLower (i : Item) : String := asciiLower i.name

/-- Identifiers for the 21 rooms built by `Game::createWorld`, in the order
they are pushed onto `allRooms`.  Exits store a `RoomId` in place of the
C++ raw `Room*` back-reference. -/
inductive RoomId where
  | startCell | corridor1 | guardRoom | armory | mainHall
  | kitchen | pantry | library | study | courtyard
  | gardenPath | deepForest | cellarStairs | wineCellar | storageRoom
  | hiddenPassage | undergroundStream | outerGate | towerBase | towerStairs
  | towerTop
deriving DecidableEq

/-- The order of `allRooms.push_back` calls in `createWorld`. -/
def allRoomIds : List RoomId :=
  [.startCell, .corridor1, .guardRoom, .armory, .mainHall,
   .kitchen, .pantry, .library, .study, .courtyard,
   .gardenPath, .deepForest, .cellarStairs, .wineCellar, .storageRoom,
   .hiddenPassage, .undergroundStream, .outerGate, .towerBase, .towerStairs,
   .towerTop]

/-- Keyed insert-or-overwrite into an exit map, the effect of
`exits[lowerDir] = targetRoom` on the `std::map`.  (The `std::map` iterates
in lexicographic key order; no verified property depends on iteration
order, so the entry order of this association list is left unspecified.) -/
def exitsInsert (k : String) (v : RoomId) : List (String × RoomId) → List (String × RoomId)
  | [] => [(k, v)]
  | (k2, v2) :: rest => if k2 = k then (k, v) :: rest else (k2, v2) :: exitsInsert k v rest

/-- Exact-key lookup, the effect of `exits.find(direction)`. -/
def lookupExit (k : String) : List (String × RoomId) → Option RoomId
  | [] => none
  | (k2, v) :: rest => if k = k2 then some v else lookupExit k rest

/-- The mutable state of one `Room` object. -/
structure RoomData where
  name : String
  description : String
  exits : List (String × RoomId)
  items : List Item
deriving DecidableEq

/-- The `Room(name, desc)` constructor: empty exits, empty items. -/
def mkRoom (n desc : String) : RoomData :=
  { name := n, description := desc, exits := [], items := [] }

/-- `Room::getExit` (src/prime.cpp lines 86–92): exact lookup of the given
key, `nullptr` (here `none`) when absent.  It does not lowercase. -/
def RoomData.getExit (rd : RoomData) (direction : String) : Option RoomId :=
  lookupExit direction rd.exits

/-- `Room::addExit` (src/prime.cpp lines 95–99): lowercases the direction,
then stores/overwrites the mapping. -/
def RoomData.addExit (rd : RoomData) (direction : String) (targetRoom : RoomId) : RoomData :=
  { rd with exits := exitsInsert (asciiLower direction) targetRoom rd.exits }

/-- `Room::addItem` (src/prime.cpp lines 102–106): appends the item.  (The
C++ null-pointer guard has no counterpart: embedded items are values.) -/
def RoomData.addItem (rd : RoomData) (item : Item) : RoomData :=
  { rd with items := rd.items ++ [item] }

/-- `Room::removeItem` (src/prime.cpp lines 109–118): scan in insertion
order for the first case-insensitive name match; remove and return it, or
return `none`.  The pair is (returned item, remaining item list). -/
def removeItem (itemNameLower : String) : List Item → Option Item × List Item
  | [] => (none, [])
  | i :: rest =>
    if i.getNameLower = itemNameLower then (some i, rest)
    else
      let r := removeItem itemNameLower rest
      (r.1, i :: r.2)

/-- `Room::findItem` (src/prime.cpp lines 121–128), also the inventory scan
in `Player::lookAt`/`Player::hasItem`: first case-insensitive name match,
non-mutating. -/
def findItem (itemNameLower : String) : List Item → Option Item
  | [] => none
  | i :: rest => if i.getNameLower = itemNameLower then some i else findItem itemNameLower rest

/-! ## World and player state -/

/-- The arena of room objects owned by `Game::allRooms`, addressed by
`RoomId`. -/
def World : Type := RoomId → RoomData

/-- In-place mutation of one room object. -/
def updateRoom (w : World) (r : RoomId) (f : RoomData → RoomData) : World :=
  fun x => if x = r then f (w x) else w x

/-- The mutable state reachable from `Game`: the room arena, the player's
current location (`Player::currentLocation`, always a valid room once the
world is built) and the player's inventory. -/
structure GameState where
  world : World
  loc : RoomId
  inv : List Item

/-- Abstract console output.  One constructor per print site of the game
that the verified properties mention. -/
inductive Msg where
  | lookRoom (r : RoomId)
  | lookItem (description : String)
  | notSeenHere (name : String)
  | moveDir (d : String)
  | cantGo
  | notSeenToTake (name : String)
  | notTakeable (name : String)
  | pickedUp (name : String)
  | takeFallback (name : String)
  | inventoryList (names : List String)
  | goWhere
  | takeWhat
  | helpText
  | unknownVerb (v : String)
  | quitPrompt
  | goodbye
  | continuing
  | enterHint
deriving DecidableEq

/-! ## Player operations -/

/-- `Player::go` (src/prime.cpp lines 160–177): lowercase the direction,
look up the exit; on success print the move line and enter the room via
`moveTo`, which re-points `currentLocation` and calls `Room::look`
(`Msg.lookRoom`); on failure print the cannot-go line and change nothing.
(The `!currentLocation` guard has no counterpart: `loc` is total.) -/
def go (st : GameState) (direction : String) : GameState × List Msg :=
  let lowerDir := asciiLower direction
  match (st.world st.loc).getExit lowerDir with
  | some nextRoom => ({ st with loc := nextRoom }, [Msg.moveDir lowerDir, Msg.lookRoom nextRoom])
  | none => (st, [Msg.cantGo])

/-- `Player::lookAt` (src/prime.cpp lines 189–211): inventory first, then
the current room; `Item::look` prints the description. -/
def lookAt (st : GameState) (itemName : String) : Msg :=
  let lowerName := asciiLower itemName
  match findItem lowerName st.inv with
  | some i => Msg.lookItem i.description
  | none =>
    match findItem lowerName (st.world st.loc).items with
    | some i => Msg.lookItem i.description
    | none => Msg.notSeenHere itemName

/-- `Player::take` (src/prime.cpp lines 215–245): lowercase the name, find a
matching item in the room; fail if absent or not takeable; otherwise call
`removeItem` again ("Re-confirm removal") and push the removed item onto the
inventory, with the defensive fallback branch kept. -/
def take (st : GameState) (itemName : String) : GameState × List Msg :=
  let lowerName := asciiLower itemName
  match findItem lowerName (st.world st.loc).items with
  | none => (st, [Msg.notSeenToTake itemName])
  | some itemToTake =>
    if !itemToTake.takeable then (st, [Msg.notTakeable itemToTake.name])
    else
      let r := removeItem lowerName (st.world st.loc).items
      match r.1 with
      | some removed =>
        ({ st with
            world := updateRoom st.world st.loc (fun rd => { rd with items := r.2 }),
            inv := st.inv ++ [removed] },
         [Msg.pickedUp removed.name])
      | none => (st, [Msg.takeFallback itemName])

/-- `Player::showInventory` (src/prime.cpp lines 248–259). -/
def showInventory (st : GameState) : Msg :=
  Msg.inventoryList (st.inv.map Item.name)

/-- `Player::hasItem` (src/prime.cpp lines 262–269). -/
def hasItem (st : GameState) (itemNameLower : String) : Bool :=
  (findItem itemNameLower st.inv).isSome

/-! ## World construction (`Game::createWorld`, src/prime.cpp lines 381–563) -/

def key : Item := { name := "Rusty Key", description := "A small, tarnished key. It looks old.", takeable := true }

def map : Item := { name := "Torn Map", description := "A piece of parchment with crude drawings. Part of it is missing.", takeable := true }

def torch : Item := { name := "Dim Torch", description := "An old wooden torch, casting a weak, flickering light.", takeable := true }

def sword : Item := { name := "Iron Sword", description := "A basic iron sword. It\x27s seen better days but still functional.", takeable := true }

def shield : Item := { name := "Wooden Shield", description := "A simple round wooden shield.", takeable := true }

def potion : Item := { name := "Red Potion", description := "A small vial containing a bubbling red liquid.", takeable := true }

def book : Item := { name := "Dusty Book", description := "A heavy tome bound in cracked leather. The title is illegible.", takeable := true }

def coin : Item := { name := "Gold Coin", description := "A shiny gold coin.", takeable := true }

def gem : Item := { name := "Blue Gem", description := "A sparkling blue gem.", takeable := true }

def scroll : Item := { name := "Ancient Scroll", description := "A fragile scroll covered in strange symbols.", takeable := true }

def statue : Item := { name := "Stone Statue", description := "A large statue of a forgotten king, covered in moss.", takeable := false }

def fountain : Item := { name := "Dry Fountain", description := "An ornate fountain, now dry and filled with leaves.", takeable := false }

def altar : Item := { name := "Stone Altar", description := "A flat stone altar with strange carvings.", takeable := false }

def tapestry : Item := { name := "Faded Tapestry", description := "A large, moth-eaten tapestry depicting a hunting scene.", takeable := false }

def painting : Item := { name := "Oil Painting", description := "A painting of a stern-looking nobleman. His eyes seem to follow you.", takeable := false }

def well : Item := { name := "Deep Well", description := "A dark well. You can\x27t see the bottom.", takeable := false }

def table : Item := { name := "Wooden Table", description := "A sturdy wooden table.", takeable := false }

def chair : Item := { name := "Rickety Chair", description := "An old wooden chair that looks unsafe to sit on.", takeable := false }

def bed : Item := { name := "Straw Bed", description := "A simple bed made of straw. Doesn\x27t look comfortable.", takeable := false }

def fireplace : Item := { name := "Cold Fireplace", description := "A large stone fireplace, full of ashes.", takeable := false }

/-- The 21 `Room(name, desc)` constructor calls of `createWorld`, before any
exits or items are added. -/
def baseWorld : World := fun r =>
  match r with
  | .startCell => mkRoom "Damp Cell" "You are in a small, damp stone cell. The air is cold and smells of mildew.\nA single barred window is high on one wall, letting in faint moonlight.\nThe only exit seems to be a heavy wooden door to the north."
  | .corridor1 => mkRoom "Narrow Corridor" "A narrow stone corridor stretches ahead. Torches flicker dimly on the walls.\nIt continues north and south."
  | .guardRoom => mkRoom "Guard Room" "This looks like it was a guard room. An overturned table and a broken chair lie on the floor.\nThere\x27s an exit west and the corridor continues south."
  | .armory => mkRoom "Small Armory" "This small room is clearly an armory, though mostly empty now.\nRacks line the walls, but only a few items remain.\nAn exit leads east back to the guard room."
  | .mainHall => mkRoom "Main Hall" "A large, echoing hall. Dust motes dance in the beams of light (if any).\nFaded tapestries hang on the walls. Exits lead north, south, and east."
  | .kitchen => mkRoom "Abandoned Kitchen" "This was once a kitchen. Pots and pans lie scattered around.\nA large, cold fireplace dominates one wall.\nAn exit leads west back to the Main Hall."
  | .pantry => mkRoom "Dusty Pantry" "A small pantry adjoining the kitchen. Shelves line the walls, mostly empty except for cobwebs and dust.\nA single exit leads south to the kitchen."
  | .library => mkRoom "Quiet Library" "Rows of tall bookshelves fill this room, though many books are missing or destroyed.\nThe air smells of old paper and dust.\nAn exit leads west from the Main Hall."
  | .study => mkRoom "Small Study" "A small, cluttered study. A large wooden desk sits against one wall.\nPapers are scattered everywhere.\nAn exit leads south back to the library."
  | .courtyard => mkRoom "Overgrown Courtyard" "You step outside into a courtyard overgrown with weeds and thorny bushes.\nA dry fountain sits in the center.\nExits lead north (back into the Main Hall) and east (to a path)."
  | .gardenPath => mkRoom "Garden Path" "A winding path through what was once a garden. It\x27s wild and untamed now.\nThe path continues east and west (back to the courtyard)."
  | .deepForest => mkRoom "Deep Forest" "The path ends abruptly at the edge of a dark, imposing forest.\nThe trees are thick and block out much of the light. \nYou feel watched.\nGoing back west is the only clear option for now."
  | .cellarStairs => mkRoom "Cellar Stairs" "Stone steps lead down into darkness from the main hall (south exit).\nThe air is noticeably colder here.\nStairs go down, and back up (north)."
  | .wineCellar => mkRoom "Wine Cellar" "Rows of empty wine racks line the walls of this cool cellar.\nSome broken bottles crunch underfoot.\nStairs lead up. Another passage leads east."
  | .storageRoom => mkRoom "Storage Room" "A damp storage room filled with broken crates and barrels.\nIt smells strongly of mildew.\nThe only exit is west, back to the wine cellar."
  | .hiddenPassage => mkRoom "Hidden Passage" "A narrow, secret passage behind a loose stone in the storage room (requires finding/action - not implemented yet).\nIt\x27s pitch black without a light source.\nExits lead west (back to storage) and north."
  | .undergroundStream => mkRoom "Underground Stream" "The passage opens into a small cavern where a slow-moving underground stream flows.\nThe water looks surprisingly clear.\nA passage leads south."
  | .outerGate => mkRoom "Outer Gate" "You\x27ve reached a large, rusted iron gate, seemingly the main entrance/exit to this place.\nIt appears stuck or locked (not implemented).\nPath leads back south into the Courtyard."
  | .towerBase => mkRoom "Tower Base" "The base of a crumbling stone tower. Rubble lies scattered around.\nThere\x27s a doorway leading inside (north) and the Garden Path is to the west."
  | .towerStairs => mkRoom "Tower Stairs" "A winding stone staircase climbs upwards inside the tower.\nIt looks unstable in places.\nStairs go up and down (south)."
  | .towerTop => mkRoom "Tower Top" "You are at the top of the crumbling tower. The wind whistles through gaps in the stone.\nYou have a wide view of the surrounding area (mostly forest).\nStairs lead down."

/-- One mutation step of `createWorld`: an `addExit` or an `addItem` call on
one room. -/
inductive WorldOp where
  | exitOp (r : RoomId) (d : String) (t : RoomId)
  | itemOp (r : RoomId) (i : Item)

/-- Apply one `createWorld` mutation. -/
def applyOp (w : World) : WorldOp → World
  | .exitOp r d t => updateRoom w r (fun rd => rd.addExit d t)
  | .itemOp r i => updateRoom w r (fun rd => rd.addItem i)

/-- Every `addExit` and `addItem` call of `createWorld` (src/prime.cpp
lines 459–558), in source order — including the duplicated wiring of the
cell/corridor/guard-room segment that a later `addExit` overwrites. -/
def worldOps : List WorldOp :=
  [.exitOp .startCell "north" .corridor1,
   .exitOp .corridor1 "south" .startCell,
   .exitOp .corridor1 "north" .mainHall,
   .exitOp .guardRoom "south" .corridor1,
   .exitOp .guardRoom "west" .armory,
   .exitOp .startCell "north" .corridor1,
   .exitOp .corridor1 "south" .startCell,
   .exitOp .corridor1 "north" .guardRoom,
   .exitOp .guardRoom "south" .corridor1,
   .exitOp .guardRoom "west" .armory,
   .exitOp .guardRoom "north" .mainHall,
   .exitOp .armory "east" .guardRoom,
   .exitOp .mainHall "south" .guardRoom,
   .exitOp .mainHall "east" .kitchen,
   .exitOp .mainHall "west" .library,
   .exitOp .mainHall "north" .courtyard,
   .exitOp .mainHall "down" .cellarStairs,
   .exitOp .kitchen "west" .mainHall,
   .exitOp .kitchen "north" .pantry,
   .exitOp .pantry "south" .kitchen,
   .exitOp .library "east" .mainHall,
   .exitOp .library "north" .study,
   .exitOp .study "south" .library,
   .exitOp .courtyard "south" .mainHall,
   .exitOp .courtyard "east" .gardenPath,
   .exitOp .courtyard "north" .outerGate,
   .exitOp .outerGate "south" .courtyard,
   .exitOp .gardenPath "west" .courtyard,
   .exitOp .gardenPath "east" .deepForest,
   .exitOp .gardenPath "north" .towerBase,
   .exitOp .deepForest "west" .gardenPath,
   .exitOp .towerBase "south" .gardenPath,
   .exitOp .towerBase "north" .towerStairs,
   .exitOp .towerStairs "down" .towerBase,
   .exitOp .towerStairs "up" .towerTop,
   .exitOp .towerTop "down" .towerStairs,
   .exitOp .cellarStairs "up" .mainHall,
   .exitOp .cellarStairs "down" .wineCellar,
   .exitOp .wineCellar "up" .cellarStairs,
   .exitOp .wineCellar "east" .storageRoom,
   .exitOp .storageRoom "west" .wineCellar,
   .exitOp .storageRoom "east" .hiddenPassage,
   .exitOp .hiddenPassage "west" .storageRoom,
   .exitOp .hiddenPassage "north" .undergroundStream,
   .exitOp .undergroundStream "south" .hiddenPassage,
   .itemOp .startCell torch,
   .itemOp .startCell bed,
   .itemOp .armory sword,
   .itemOp .armory shield,
   .itemOp .armory gem,
   .itemOp .guardRoom table,
   .itemOp .guardRoom chair,
   .itemOp .guardRoom coin,
   .itemOp .mainHall tapestry,
   .itemOp .mainHall statue,
   .itemOp .kitchen fireplace,
   .itemOp .kitchen potion,
   .itemOp .pantry scroll,
   .itemOp .library book,
   .itemOp .study painting,
   .itemOp .study key,
   .itemOp .courtyard fountain,
   .itemOp .courtyard well,
   .itemOp .storageRoom map,
   .itemOp .wineCellar altar]

/-- `Game::createWorld`: the fully wired and stocked world. -/
def createWorld : World := worldOps.foldl applyOp baseWorld

/-- The state right after the `Game` constructor: the built world, the
player in `allRooms[0]` (the Damp Cell) with an empty inventory. -/
def initState : GameState :=
  { world := createWorld, loc := RoomId.startCell, inv := [] }

/-! ## Command interpreter (`Game::parseInput`, `Game::handleCommand`,
`Game::run`) -/

/-- Whitespace as skipped by `std::stringstream` extraction in the "C"
locale. -/
def isStreamWS (c : Char) : Bool :=
  c = ' ' || c = '\t' || c = '\n' || c = '\x0d' || c = '\x0b' || c = '\x0c'

/-- `Game::parseInput` (src/prime.cpp lines 286–309): the first
whitespace-delimited token, lowercased, is the verb; the rest of the line,
with leading `' '` (space only) characters trimmed, is the noun.  When no
token can be extracted both come back empty (the failed `>>` leaves the
stream failed, so the subsequent `getline` yields nothing). -/
def parseInput (input : String) : String × String :=
  let rest := input.data.dropWhile isStreamWS
  if rest.isEmpty then ("", "")
  else
    let verb := asciiLower ⟨rest.takeWhile (fun c => !isStreamWS c)⟩
    let remaining := rest.dropWhile (fun c => !isStreamWS c)
    let noun : String := ⟨remaining.dropWhile (fun c => c = ' ')⟩
    (verb, noun)

/-- Interpreter control state.  `Game::handleCommand` confirms a quit by a
nested blocking `getline`; splitting that read out as the `awaitingQuit`
state makes the loop a step function over one input line at a time.
`terminated` is `gameOver == true`. -/
inductive Mode where
  | running
  | awaitingQuit
  | terminated
deriving DecidableEq

/-- `Game::handleCommand` (src/prime.cpp lines 312–360) on an extracted
verb/noun pair, minus the quit confirmation read (see `step`). -/
def handleCommand (st : GameState) (verb noun : String) : Mode × GameState × List Msg :=
  if verb = "quit" ∨ verb = "exit" then (Mode.awaitingQuit, st, [Msg.quitPrompt])
  else if verb = "look" then
    if noun = "" then (Mode.running, st, [Msg.lookRoom st.loc])
    else (Mode.running, st, [lookAt st noun])
  else if verb = "go" ∨ verb = "move" ∨ verb = "walk" then
    if noun = "" then (Mode.running, st, [Msg.goWhere])
    else
      let r := go st noun
      (Mode.running, r.1, r.2)
  else if verb = "take" ∨ verb = "get" ∨ verb = "pickup" then
    if noun = "" then (Mode.running, st, [Msg.takeWhat])
    else
      let r := take st noun
      (Mode.running, r.1, r.2)
  else if verb = "inventory" ∨ verb = "i" then (Mode.running, st, [showInventory st])
  else if verb = "help" ∨ verb = "?" then (Mode.running, st, [Msg.helpText])
  else (Mode.running, st, [Msg.unknownVerb verb])

/-- One iteration of `Game::run` (src/prime.cpp lines 608–629) consuming one
input line: empty lines are skipped; a parsed verb is dispatched; a line
with no extractable verb prints the hint only when it contains a character
other than `' '` (`find_first_not_of(' ')`).  In `awaitingQuit` the line is
the confirmation read inside `handleCommand`: lowercased `"yes"`/`"y"` sets
`gameOver`, anything else cancels.  `terminated` consumes nothing. -/
def step (m : Mode) (st : GameState) (line : String) : Mode × GameState × List Msg :=
  match m with
  | Mode.terminated => (Mode.terminated, st, [])
  | Mode.awaitingQuit =>
    let confirmation := asciiLower line
    if confirmation = "yes" ∨ confirmation = "y" then (Mode.terminated, st, [Msg.goodbye])
    else (Mode.running, st, [Msg.continuing])
  | Mode.running =>
    if line = "" then (Mode.running, st, [])
    else
      let verb := (parseInput line).1
      let noun := (parseInput line).2
      if verb ≠ "" then handleCommand st verb noun
      else if line.data.any (fun c => !(c = ' ')) then (Mode.running, st, [Msg.enterHint])
      else (Mode.running, st, [])

/-- The interpreter loop over a list of input lines (the loop also stops at
end of input, which leaves mode and state as they stand). -/
def runLines (m : Mode) (st : GameState) : List String → Mode × GameState × List Msg
  | [] => (m, st, [])
  | line :: rest =>
    let r := step m st line
    let r2 := runLines r.1 r.2.1 rest
    (r2.1, r2.2.1, r.2.2 ++ r2.2.2)

/-! ## Item accounting for the conservation invariant -/

/-- The multiset of items sitting in rooms. -/
def roomsMultiset (st : GameState) : Multiset Item :=
  (allRoomIds.map (fun r => ((st.world r).items : Multiset Item))).sum

/-- Every item in the game: all rooms' items plus the inventory. -/
def totalItems (st : GameState) : Multiset Item :=
  roomsMultiset st + (st.inv : Multiset Item)

/-- A sequence of `take` commands, applied left to right. -/
def applyTakes (st : GameState) (names : List String) : GameState :=
  names.foldl (fun s n => (take s n).1) st

/-! ## Shared lemmas -/

/-- Looking up a key right after inserting it finds the inserted value. -/
theorem lookupExit_exitsInsert_self (k : String) (v : RoomId) (l : List (String × RoomId)) :
    lookupExit k (exitsInsert k v l) = some v := by
  induction l with
  | nil => simp [exitsInsert, lookupExit]
  | cons h t ih =>
    obtain ⟨k2, v2⟩ := h
    by_cases hk : k2 = k
    · simp [exitsInsert, hk, lookupExit]
    · simp [exitsInsert, hk, lookupExit, Ne.symm hk, ih]

/-- After `addExit d x`, looking up the lowercased direction finds `x`. -/
theorem getExit_addExit_self (rd : RoomData) (d : String) (x : RoomId) :
    (rd.addExit d x).getExit (asciiLower d) = some x :=
  lookupExit_exitsInsert_self _ _ _

/-- The item `removeItem` returns is exactly the one `findItem` finds: both
scan the same list with the same match, so the "Re-confirm removal" in
`Player::take` always agrees with the preceding `findItem`. -/
theorem removeItem_fst_eq_findItem (n : String) (l : List Item) :
    (removeItem n l).1 = findItem n l := by
  induction l with
  | nil => rfl
  | cons i t ih =>
    by_cases hm : i.getNameLower = n
    · simp [removeItem, findItem, hm]
    · simp [removeItem, findItem, hm, ih]

/-- When `removeItem` succeeds it removes exactly one occurrence: as
multisets the original list is the removed item plus the remainder. -/
theorem removeItem_some_multiset (n : String) (l : List Item) (x : Item)
    (h : (removeItem n l).1 = some x) :
    (l : Multiset Item) = x ::ₘ ((removeItem n l).2 : Multiset Item) := by
  induction l with
  | nil => simp [removeItem] at h
  | cons i t ih =>
    by_cases hm : i.getNameLower = n
    · simp only [removeItem, hm, if_pos, Option.some.injEq] at h
      subst h
      simp [removeItem, hm]
    · simp only [removeItem, hm, if_neg, ite_false] at h ⊢
      rw [← Multiset.cons_coe, ← Multiset.cons_coe, ih h, Multiset.cons_swap]

/-- Each room identifier occurs exactly once in `allRoomIds`. -/
theorem count_allRoomIds (r : RoomId) : allRoomIds.count r = 1 := by
  cases r <;> rfl

/-- Summing a pointwise-updated family over a list that mentions the updated
point exactly once replaces exactly that summand. -/
theorem sum_map_update (l : List RoomId) (f : RoomId → Multiset Item) (loc : RoomId)
    (v : Multiset Item) (h : l.count loc = 1) :
    (l.map (fun r => if r = loc then v else f r)).sum + f loc = (l.map f).sum + v := by
  induction l with
  | nil => simp at h
  | cons a t ih =>
    by_cases ha : a = loc
    · subst ha
      rw [List.count_cons_self] at h
      have ht : t.count a = 0 := by omega
      have hmap : t.map (fun r => if r = a then v else f r) = t.map f := by
        apply List.map_congr_left
        intro x hx
        have hxa : x ≠ a := by
          intro hc; subst hc
          rw [List.count_eq_zero] at ht; exact ht hx
        simp [hxa]
      simp [hmap]
      abel
    · rw [List.count_cons_of_ne (by exact fun hc => ha hc.symm)] at h
      simp only [List.map_cons, List.sum_cons, if_neg ha]
      rw [add_assoc, ih h, ← add_assoc]

/-! ## Claim C2 : case-insensitivity of exit lookup -/

/-- Claim C2, as stated, is false on the code: `Room::getExit` does not
normalize its argument, so after `addExit("north", X)` a lookup with the
uppercased variant `"NORTH"` misses the stored lowercase key and returns the
`none` sentinel instead of `X`. -/
theorem getExit_uppercase_misses :
    ¬ ((mkRoom "R" "D").addExit "north" RoomId.mainHall).getExit "NORTH"
        = some RoomId.mainHall := by decide

/-- Claim C2 (amended): `addExit` normalizes the direction to lowercase, so
`getExit` applied to the lowercased form of any case-variant of `D` (it is
the callers, e.g. `Player::go`, that lowercase before calling `getExit`)
returns the stored target. -/
theorem addExit_getExit_lowercased (rd : RoomData) (d u : String) (x : RoomId)
    (h : asciiLower u = asciiLower d) :
    (rd.addExit d x).getExit (asciiLower u) = some x := by
  unfold RoomData.getExit RoomData.addExit
  rw [h]
  exact lookupExit_exitsInsert_self _ _ _

/-- Witness for the amended C2 at a concrete room and direction. -/
theorem addExit_getExit_lowercased_witness :
    ((mkRoom "R" "D").addExit "North" RoomId.mainHall).getExit (asciiLower "NORTH")
      = some RoomId.mainHall :=
  addExit_getExit_lowercased (mkRoom "R" "D") "North" "NORTH" RoomId.mainHall (by decide)

/-! ## Claim C8 : overwrite semantics of `addExit` and the corridor wiring -/

/-- Claim C8: `addExit` silently overwrites an existing mapping for the same
lowercased key (last write wins); in the built world the Narrow Corridor's
`"north"` exit is therefore the Guard Room (from the later call at
src/prime.cpp line 470), not the Main Hall (from the overwritten call at
line 462). -/
theorem addExit_last_write_wins :
    (∀ (rd : RoomData) (d : String) (t1 t2 : RoomId),
        ((rd.addExit d t1).addExit d t2).getExit (asciiLower d) = some t2)
    ∧ (createWorld RoomId.corridor1).getExit "north" = some RoomId.guardRoom
    ∧ ¬ (createWorld RoomId.corridor1).getExit "north" = some RoomId.mainHall := by
  refine ⟨fun rd d t1 t2 => getExit_addExit_self _ d t2, ?_, ?_⟩
  · decide
  · decide

/-- Witness instantiating the overwrite law of C8 at concrete arguments. -/
theorem addExit_last_write_wins_witness :
    (((mkRoom "Narrow Corridor" "D").addExit "north" RoomId.mainHall).addExit
        "north" RoomId.guardRoom).getExit (asciiLower "north") = some RoomId.guardRoom :=
  addExit_last_write_wins.1 (mkRoom "Narrow Corridor" "D") "north" RoomId.mainHall
    RoomId.guardRoom

/-! ## Claim C6 : `removeItem` after adding an item -/

/-- Claim C6, as stated, is false on the code when the room already holds
another item with the same lowercased name: `removeItem` then removes the
earlier match, the added item is still present afterwards, and a second
call returns it rather than the `none` sentinel. -/
theorem removeItem_duplicate_name_cex :
    (Item.mk "key" "a second key" true)
        ∈ (removeItem (asciiLower "key")
            [Item.mk "Key" "a first key" true, Item.mk "key" "a second key" true]).2
    ∧ ¬ (removeItem (asciiLower "key")
          (removeItem (asciiLower "key")
            [Item.mk "Key" "a first key" true, Item.mk "key" "a second key" true]).2).1
        = none := by decide

/-- Claim C6 (amended): for every item `i` added (appended) to a room none
of whose current items matches `i`'s lowercased name, `removeItem` with that
name removes and returns exactly `i` — the first (and only) match in
insertion order — leaving the prior list, in which `i` does not occur; and a
second `removeItem` with the same name returns the `none` sentinel. -/
theorem removeItem_added_item_spec (pre : List Item) (i : Item)
    (h : ∀ j ∈ pre, j.getNameLower ≠ i.getNameLower) :
    removeItem i.getNameLower (pre ++ [i]) = (some i, pre)
    ∧ i ∉ pre
    ∧ (removeItem i.getNameLower pre).1 = none := by
  refine ⟨?_, ?_, ?_⟩
  · induction pre with
    | nil => simp [removeItem]
    | cons j t ih =>
      have hj : j.getNameLower ≠ i.getNameLower := h j (by simp)
      have ht := ih (fun a ha => h a (by simp [ha]))
      simp [removeItem, hj, ht]
  · intro hmem
    exact h i hmem rfl
  · induction pre with
    | nil => rfl
    | cons j t ih =>
      have hj : j.getNameLower ≠ i.getNameLower := h j (by simp)
      have ht := ih (fun a ha => h a (by simp [ha]))
      simp [removeItem, hj, ht]

/-- Witness for the amended C6: a bed is in the room, a torch is added,
taking the torch by name behaves as specified. -/
theorem removeItem_added_item_spec_witness :
    removeItem torch.getNameLower [bed, torch] = (some torch, [bed])
    ∧ torch ∉ [bed]
    ∧ (removeItem torch.getNameLower [bed]).1 = none :=
  removeItem_added_item_spec [bed] torch (by decide)

/-! ## Claim C10 : the defensive branch of `Player::take` -/

/-- Claim C10: `removeItem` returns (as first component) exactly what
`findItem` finds, so whenever `Player::take` has seen a takeable item the
re-confirming `removeItem` also succeeds and the defensive
something-went-wrong branch can never produce output. -/
theorem take_fallback_unreachable :
    (∀ (n : String) (l : List Item), (removeItem n l).1 = findItem n l)
    ∧ (∀ (st : GameState) (itemName : String),
        ¬ (take st itemName).2 = [Msg.takeFallback itemName]) := by
  refine ⟨removeItem_fst_eq_findItem, fun st itemName => ?_⟩
  unfold take
  cases hf : findItem (asciiLower itemName) (st.world st.loc).items with
  | none => simp [hf]
  | some itemToTake =>
    cases ht : itemToTake.takeable with
    | false => simp [hf, ht]
    | true =>
      have hr : (removeItem (asciiLower itemName) (st.world st.loc).items).1
          = some itemToTake := by rw [removeItem_fst_eq_findItem, hf]
      simp [hf, ht, hr]

/-- Witness instantiating C10's agreement between `removeItem` and
`findItem` at a concrete list. -/
theorem take_fallback_unreachable_witness :
    (removeItem "dim torch" [torch, bed]).1 = findItem "dim torch" [torch, bed] :=
  take_fallback_unreachable.1 "dim torch" [torch, bed]

/-! ## Claim C4 : `Player::go` -/

/-- Claim C4: `go` lowercases the direction and looks it up among the
current room's exits; with no mapped exit it prints the cannot-go line and
leaves the player (and everything else) unchanged; with a mapped exit the
current room becomes exactly the target and the move line plus an implicit
look of the new room are printed. -/
theorem go_spec (st : GameState) (direction : String) :
    ((st.world st.loc).getExit (asciiLower direction) = none →
      go st direction = (st, [Msg.cantGo]))
    ∧ (∀ r, (st.world st.loc).getExit (asciiLower direction) = some r →
      go st direction
        = ({ st with loc := r }, [Msg.moveDir (asciiLower direction), Msg.lookRoom r])) := by
  constructor
  · intro h
    simp [go, h]
  · intro r h
    simp [go, h]

/-- Witness for C4: from the Damp Cell, `go NORTH` enters the Narrow
Corridor, and `go up` fails. -/
theorem go_spec_witness :
    go initState "NORTH"
        = ({ initState with loc := RoomId.corridor1 },
           [Msg.moveDir (asciiLower "NORTH"), Msg.lookRoom RoomId.corridor1])
    ∧ go initState "up" = (initState, [Msg.cantGo]) :=
  ⟨(go_spec initState "NORTH").2 RoomId.corridor1 (by decide),
   (go_spec initState "up").1 (by decide)⟩

/-! ## Claim C3 : `Player::take` -/

/-- Claim C3: `take` fails with the not-seen message when no
case-insensitive name match is in the current room and with the
cannot-take message when the matching item is not takeable, leaving the
whole state (room items and inventory included) unchanged in both cases;
on success the matched item is removed from the room — exactly one
occurrence, as the multiset equation states — appended to the inventory,
and the pickup confirmation is printed. -/
theorem take_spec (st : GameState) (itemName : String) :
    (findItem (asciiLower itemName) (st.world st.loc).items = none →
      take st itemName = (st, [Msg.notSeenToTake itemName]))
    ∧ (∀ i, findItem (asciiLower itemName) (st.world st.loc).items = some i →
        i.takeable = false →
        take st itemName = (st, [Msg.notTakeable i.name]))
    ∧ (∀ i, findItem (asciiLower itemName) (st.world st.loc).items = some i →
        i.takeable = true →
        take st itemName
          = ({ st with
                world := updateRoom st.world st.loc
                  (fun rd => { rd with
                    items := (removeItem (asciiLower itemName) (st.world st.loc).items).2 }),
                inv := st.inv ++ [i] },
             [Msg.pickedUp i.name])
        ∧ ((st.world st.loc).items : Multiset Item)
            = i ::ₘ ((removeItem (asciiLower itemName) (st.world st.loc).items).2 : Multiset Item)) := by
  refine ⟨?_, ?_, ?_⟩
  · intro h
    simp [take, h]
  · intro i h ht
    simp [take, h, ht]
  · intro i h ht
    have hr : (removeItem (asciiLower itemName) (st.world st.loc).items).1 = some i := by
      rw [removeItem_fst_eq_findItem, h]
    exact ⟨by simp [take, h, ht, hr], removeItem_some_multiset _ _ i hr⟩

/-- Witness for C3: in the Damp Cell, taking the (scenery) straw bed fails
with the cannot-take message and changes nothing, and taking a nonexistent
item fails with the not-seen message. -/
theorem take_spec_witness :
    take initState "Straw Bed" = (initState, [Msg.notTakeable bed.name])
    ∧ take initState "lantern" = (initState, [Msg.notSeenToTake "lantern"]) :=
  ⟨(take_spec initState "Straw Bed").2.1 bed (by decide) (by decide),
   (take_spec initState "lantern").1 (by decide)⟩

/-! ## Claim C7 : blank input lines -/

/-- Claim C7, as stated, is false on the code: a line consisting of a single
tab character is whitespace-only, yet the loop prints the please-enter-a-
valid-command hint for it, because the whitespace check after parsing uses
`find_first_not_of(' ')` and looks for spaces only. -/
theorem tab_line_prints_hint :
    step Mode.running initState "\t" = (Mode.running, initState, [Msg.enterHint]) := rfl

/-- Claim C7 (amended): an input line that is empty or consists only of
space characters is silently ignored — no message, no state change, the
loop re-prompts.  (A line of other whitespace, such as a tab, still leaves
the state unchanged but prints the invalid-command hint.) -/
theorem space_only_line_ignored (st : GameState) (line : String)
    (h : ∀ c ∈ line.data, c = ' ') :
    step Mode.running st line = (Mode.running, st, []) := by
  by_cases hl : line = ""
  · simp [step, hl]
  · have hrest : line.data.dropWhile isStreamWS = [] := by
      rw [List.dropWhile_eq_nil_iff]
      intro x hx
      rw [h x hx]; rfl
    have hverb : (parseInput line).1 = "" := by
      simp [parseInput, hrest]
    have hany : line.data.any (fun c => !(c = ' ')) = false := by
      rw [List.any_eq_false]
      intro x hx
      simp [h x hx]
    simp [step, hl, hverb, hany]

/-- Witness for the amended C7 at a three-space line. -/
theorem space_only_line_ignored_witness :
    step Mode.running initState "   " = (Mode.running, initState, []) :=
  space_only_line_ignored initState "   " (by decide)

/-! ## Claim C5 : the quit flow -/

/-- Claim C5: a line whose verb parses to `quit` or `exit` moves the loop
into the confirmation state and prompts; a confirmation answering lowercased
`yes` or `y` terminates; any other answer returns to the running state with
the game state intact, so a subsequent command line is processed exactly as
it would have been before the cancelled quit; the terminated state consumes
every further line without effect. -/
theorem quit_flow_spec (st : GameState) (q answer : String)
    (hq : (parseInput q).1 = "quit" ∨ (parseInput q).1 = "exit") :
    step Mode.running st q = (Mode.awaitingQuit, st, [Msg.quitPrompt])
    ∧ (asciiLower answer = "yes" ∨ asciiLower answer = "y" →
        runLines Mode.running st [q, answer]
          = (Mode.terminated, st, [Msg.quitPrompt, Msg.goodbye]))
    ∧ (asciiLower answer ≠ "yes" → asciiLower answer ≠ "y" →
        runLines Mode.running st [q, answer]
          = (Mode.running, st, [Msg.quitPrompt, Msg.continuing])
        ∧ ∀ cmd : String,
            runLines Mode.running st [q, answer, cmd]
              = ((step Mode.running st cmd).1, (step Mode.running st cmd).2.1,
                 Msg.quitPrompt :: Msg.continuing :: (step Mode.running st cmd).2.2))
    ∧ (∀ (st2 : GameState) (line : String),
        step Mode.terminated st2 line = (Mode.terminated, st2, [])) := by
  have hne : q ≠ "" := by
    intro he
    subst he
    rcases hq with h | h <;> exact absurd h (by decide)
  have hstep : step Mode.running st q = (Mode.awaitingQuit, st, [Msg.quitPrompt]) := by
    rcases hq with h | h <;> simp [step, hne, h, handleCommand]
  refine ⟨hstep, ?_, ?_, fun st2 line => rfl⟩
  · intro hy
    have hconf : step Mode.awaitingQuit st answer = (Mode.terminated, st, [Msg.goodbye]) := by
      rcases hy with h | h <;> simp [step, h]
    simp [runLines, hstep, hconf]
  · intro h1 h2
    have hconf : step Mode.awaitingQuit st answer = (Mode.running, st, [Msg.continuing]) := by
      simp [step, h1, h2]
    exact ⟨by simp [runLines, hstep, hconf], fun cmd => by simp [runLines, hstep, hconf]⟩

/-- Witness for C5: from the initial state, `quit` then `no` leaves the loop
running with the state intact, while `quit` then `yes` terminates it. -/
theorem quit_flow_spec_witness :
    runLines Mode.running initState ["quit", "no"]
        = (Mode.running, initState, [Msg.quitPrompt, Msg.continuing])
    ∧ runLines Mode.running initState ["quit", "yes"]
        = (Mode.terminated, initState, [Msg.quitPrompt, Msg.goodbye]) :=
  ⟨((quit_flow_spec initState "quit" "no" (Or.inl (by decide))).2.2.1
      (by decide) (by decide)).1,
   (quit_flow_spec initState "quit" "yes" (Or.inl (by decide))).2.1 (Or.inl (by decide))⟩

/-! ## Claim C1 : item conservation under `take` sequences -/

/-- Moving a list of items into the room at `loc` while the old contents
minus one occurrence of `it` remain, and appending `it` to the inventory,
preserves the total item multiset. -/
theorem totalItems_after_move (w : World) (loc : RoomId) (inv rest : List Item) (it : Item)
    (hdecomp : ((w loc).items : Multiset Item) = it ::ₘ (rest : Multiset Item)) :
    totalItems ⟨updateRoom w loc (fun rd => { rd with items := rest }), loc, inv ++ [it]⟩
      = totalItems ⟨w, loc, inv⟩ := by
  apply add_right_cancel (b := ((w loc).items : Multiset Item))
  simp only [totalItems, roomsMultiset]
  have hmap :
      allRoomIds.map (fun r =>
        (((updateRoom w loc (fun rd => { rd with items := rest })) r).items : Multiset Item))
      = allRoomIds.map (fun r =>
          if r = loc then (rest : Multiset Item) else ((w r).items : Multiset Item)) := by
    apply List.map_congr_left
    intro x _
    by_cases hx : x = loc <;> simp [updateRoom, hx]
  rw [hmap]
  have hsum := sum_map_update allRoomIds (fun r => ((w r).items : Multiset Item)) loc
    (rest : Multiset Item) (count_allRoomIds loc)
  generalize hA : (allRoomIds.map (fun r =>
      if r = loc then (rest : Multiset Item) else ((w r).items : Multiset Item))).sum = A
    at hsum ⊢
  generalize hB : (allRoomIds.map (fun r => ((w r).items : Multiset Item))).sum = B
    at hsum ⊢
  simp only [] at hsum
  rw [hdecomp] at hsum ⊢
  simp only [← Multiset.singleton_add, ← Multiset.coe_add,
    Multiset.coe_singleton] at hsum ⊢
  generalize hR : (rest : Multiset Item) = R at hsum ⊢
  generalize hI : ((inv : List Item) : Multiset Item) = I at hsum ⊢
  calc A + (I + {it}) + ({it} + R) = A + ({it} + R) + (I + {it}) := by abel
    _ = B + R + (I + {it}) := by rw [hsum]
    _ = B + I + ({it} + R) := by abel

/-- One `take` never duplicates or loses an item: the multiset of all items
(rooms plus inventory) is unchanged whatever the argument and outcome. -/
theorem totalItems_take (st : GameState) (n : String) :
    totalItems (take st n).1 = totalItems st := by
  unfold take
  cases hf : findItem (asciiLower n) (st.world st.loc).items with
  | none => simp [hf]
  | some it =>
    cases ht : it.takeable with
    | false => simp [hf, ht]
    | true =>
      have hr : (removeItem (asciiLower n) (st.world st.loc).items).1 = some it := by
        rw [removeItem_fst_eq_findItem, hf]
      have hdecomp := removeItem_some_multiset (asciiLower n) (st.world st.loc).items it hr
      simp only [hf, ht, hr, Bool.not_true, Bool.false_eq_true, if_false]
      exact totalItems_after_move st.world st.loc st.inv
        (removeItem (asciiLower n) (st.world st.loc).items).2 it hdecomp

/-- Item conservation extends to any command sequence, from any state. -/
theorem applyTakes_totalItems (names : List String) :
    ∀ st : GameState, totalItems (applyTakes st names) = totalItems st := by
  induction names with
  | nil => intro st; rfl
  | cons n rest ih =>
    intro st
    have hstep : applyTakes st (n :: rest) = applyTakes (take st n).1 rest := rfl
    rw [hstep, ih, totalItems_take]

/-- Claim C1: after any sequence of `take` commands from the freshly built
world, the multiset union of all rooms' items and the inventory equals the
original world item set, and every original item still occurs exactly once
across all containers — nothing is duplicated or lost. -/
theorem take_sequences_preserve_items (names : List String) :
    totalItems (applyTakes initState names) = totalItems initState
    ∧ ∀ i : Item, i ∈ totalItems initState →
        (totalItems (applyTakes initState names)).count i = 1 := by
  have hp := applyTakes_totalItems names initState
  refine ⟨hp, fun i hi => ?_⟩
  rw [hp]
  have hnd : (totalItems initState).Nodup := by decide
  exact Multiset.count_eq_one_of_mem hnd hi

/-- Witness for C1 at the concrete sequence that takes the torch. -/
theorem take_sequences_preserve_items_witness :
    totalItems (applyTakes initState ["Dim Torch"]) = totalItems initState
    ∧ (totalItems (applyTakes initState ["Dim Torch"])).count torch = 1 :=
  ⟨(take_sequences_preserve_items ["Dim Torch"]).1,
   (take_sequences_preserve_items ["Dim Torch"]).2 torch (by decide)⟩

/-! ## Claim C9 : binary search correctness -/

/-- Any result of the search loop is either the not-found sentinel or an
in-range index holding the target. -/
theorem bs_sound (arr : List Int) (t : Int) (low high : Int) :
    0 ≤ low → high < (arr.length : Int) →
    (bsAux arr t low high = -1
      ∨ ∃ k : Nat, bsAux arr t low high = (k : Int) ∧ k < arr.length ∧ arr.getD k 0 = t) := by
  induction low, high using bsAux.induct arr t with
  | case1 low high hle mid v hveq =>
    intro hlo hhi
    have heq : bsAux arr t low high = low + (high - low) / 2 := by
      rw [bsAux]
      simp only [if_pos hle]
      rw [if_pos (show arr.getD ((low + (high - low) / 2)).toNat 0 = t from hveq)]
    rw [heq]
    refine Or.inr ⟨(low + (high - low) / 2).toNat, ?_, ?_, ?_⟩
    · omega
    · omega
    · exact hveq
  | case2 low high hle mid v hne hlt ih =>
    intro hlo hhi
    have heq : bsAux arr t low high = bsAux arr t (low + (high - low) / 2 + 1) high := by
      rw [bsAux]
      simp only [if_pos hle]
      rw [if_neg (show ¬ arr.getD ((low + (high - low) / 2)).toNat 0 = t from hne),
        if_pos (show arr.getD ((low + (high - low) / 2)).toNat 0 < t from hlt)]
    rw [heq]
    exact ih (by omega) hhi
  | case3 low high hle mid v hne hge ih =>
    intro hlo hhi
    have heq : bsAux arr t low high = bsAux arr t low (low + (high - low) / 2 - 1) := by
      rw [bsAux]
      simp only [if_pos hle]
      rw [if_neg (show ¬ arr.getD ((low + (high - low) / 2)).toNat 0 = t from hne),
        if_neg (show ¬ arr.getD ((low + (high - low) / 2)).toNat 0 < t from hge)]
    rw [heq]
    exact ih hlo (by omega)
  | case4 low high hgt =>
    intro _ _
    rw [bsAux]
    simp [if_neg hgt]

/-- In a non-decreasing list, values respect index order. -/
theorem sorted_getD (arr : List Int) (hs : arr.Pairwise (· ≤ ·)) (i j : Nat)
    (hij : i ≤ j) (hj : j < arr.length) : arr.getD i 0 ≤ arr.getD j 0 := by
  rcases Nat.eq_or_lt_of_le hij with h | h
  · subst h; exact le_refl _
  · rw [List.getD_eq_getElem arr 0 (by omega), List.getD_eq_getElem arr 0 hj]
    have := List.pairwise_iff_get.mp hs ⟨i, by omega⟩ ⟨j, hj⟩ h
    simpa using this

/-- When the loop answers the not-found sentinel, no index of the current
search window holds the target (for a sorted list). -/
theorem bs_not_found (arr : List Int) (t : Int) (hs : arr.Pairwise (· ≤ ·))
    (low high : Int) :
    0 ≤ low → high < (arr.length : Int) →
    bsAux arr t low high = -1 →
    ∀ j : Nat, low ≤ (j : Int) → (j : Int) ≤ high → arr.getD j 0 ≠ t := by
  induction low, high using bsAux.induct arr t with
  | case1 low high hle mid v hveq =>
    intro hlo hhi hres j hj1 hj2 he
    have heq : bsAux arr t low high = low + (high - low) / 2 := by
      rw [bsAux]
      simp only [if_pos hle]
      rw [if_pos (show arr.getD ((low + (high - low) / 2)).toNat 0 = t from hveq)]
    rw [heq] at hres
    omega
  | case2 low high hle mid v hne hlt ih =>
    intro hlo hhi hres j hj1 hj2 he
    have heq : bsAux arr t low high = bsAux arr t (low + (high - low) / 2 + 1) high := by
      rw [bsAux]
      simp only [if_pos hle]
      rw [if_neg (show ¬ arr.getD ((low + (high - low) / 2)).toNat 0 = t from hne),
        if_pos (show arr.getD ((low + (high - low) / 2)).toNat 0 < t from hlt)]
    rw [heq] at hres
    by_cases hjm : (j : Int) ≤ low + (high - low) / 2
    · have hmlt : arr.getD ((low + (high - low) / 2)).toNat 0 < t := hlt
      have hle2 : arr.getD j 0 ≤ arr.getD ((low + (high - low) / 2)).toNat 0 :=
        sorted_getD arr hs j ((low + (high - low) / 2)).toNat (by omega) (by omega)
      omega
    · exact ih (by omega) hhi hres j (by omega) hj2 he
  | case3 low high hle mid v hne hge ih =>
    intro hlo hhi hres j hj1 hj2 he
    have heq : bsAux arr t low high = bsAux arr t low (low + (high - low) / 2 - 1) := by
      rw [bsAux]
      simp only [if_pos hle]
      rw [if_neg (show ¬ arr.getD ((low + (high - low) / 2)).toNat 0 = t from hne),
        if_neg (show ¬ arr.getD ((low + (high - low) / 2)).toNat 0 < t from hge)]
    rw [heq] at hres
    by_cases hjm : low + (high - low) / 2 ≤ (j : Int)
    · have h1 : ¬ arr.getD ((low + (high - low) / 2)).toNat 0 < t := hge
      have h2 : ¬ arr.getD ((low + (high - low) / 2)).toNat 0 = t := hne
      have hle2 : arr.getD ((low + (high - low) / 2)).toNat 0 ≤ arr.getD j 0 :=
        sorted_getD arr hs ((low + (high - low) / 2)).toNat j (by omega) (by omega)
      omega
    · exact ih hlo (by omega) hres j hj1 (by omega) he
  | case4 low high hgt =>
    intro _ _ _ j hj1 hj2 _
    omega

/-- Claim C9: on every vector sorted in non-decreasing order,
`binarySearch` returns an index at which the target occurs whenever the
target is present, and `-1` whenever it is absent. -/
theorem binarySearch_correct (arr : List Int) (t : Int)
    (hs : arr.Pairwise (· ≤ ·)) :
    (t ∈ arr → ∃ k : Nat, k < arr.length
        ∧ binarySearch arr t = (k : Int) ∧ arr.getD k 0 = t)
    ∧ (t ∉ arr → binarySearch arr t = -1) := by
  constructor
  · intro hmem
    rcases List.mem_iff_get.mp hmem with ⟨⟨j, hj⟩, hget⟩
    rcases bs_sound arr t 0 ((arr.length : Int) - 1) (by omega) (by omega) with h | h
    · exfalso
      have hcontra := bs_not_found arr t hs 0 ((arr.length : Int) - 1) (by omega) (by omega)
        h j (by omega) (by omega)
      apply hcontra
      rw [List.getD_eq_getElem arr 0 hj]
      simpa using hget
    · rcases h with ⟨k, hk1, hk2, hk3⟩
      exact ⟨k, hk2, hk1, hk3⟩
  · intro hmem
    rcases bs_sound arr t 0 ((arr.length : Int) - 1) (by omega) (by omega) with h | h
    · exact h
    · rcases h with ⟨k, _, hk2, hk3⟩
      exfalso
      apply hmem
      rw [List.getD_eq_getElem arr 0 hk2] at hk3
      rw [← hk3]
      exact List.getElem_mem hk2

/-- Witness for C9 on the vector from `main`: 23 is found at a valid index,
40 is reported absent. -/
theorem binarySearch_correct_witness :
    (∃ k : Nat, k < numbers.length ∧ binarySearch numbers 23 = (k : Int)
        ∧ numbers.getD k 0 = 23)
    ∧ binarySearch numbers 40 = -1 :=
  ⟨(binarySearch_correct numbers 23 (by decide)).1 (by decide),
   (binarySearch_correct numbers 40 (by decide)).2 (by decide)⟩
